import Mathlib

/-
  Verification development for the ParkingSystem repository.

  The Python services under `backend/services/` are shallowly embedded as
  executable Lean definitions: machine floats on timestamps, confidences and
  area ratios are modelled as exact rationals (`Rat`), Python `int()`
  truncation as `pyInt`, Python floor division `//` as `Int.fdiv`, and the
  mutable per-object dictionaries as association lists with replace-on-insert
  semantics.  Stateful methods become explicit state-passing functions.
-/

namespace ParkingSystem

/-- Axis-aligned bounding box `(x1, y1, x2, y2)` as used throughout the
repository for detections and spot rectangles. -/
structure BBox where
  x1 : Int
  y1 : Int
  x2 : Int
  y2 : Int
deriving DecidableEq

/-- A single vehicle detection (`Detection` in `detector.py`): bounding box
and confidence.  The class name plays no role in the embedded algorithms. -/
structure Det where
  bbox : BBox
  confidence : Rat
deriving DecidableEq

/-- Python `int()` applied to a real value, modelled on rationals:
truncation toward zero. -/
def pyInt (q : Rat) : Int := Int.tdiv q.num (q.den : Int)

/-- Embeds `VehicleTracker._calculate_iou`: intersection over union of two
axis-aligned boxes, with the two early-out branches of the source
(empty intersection, zero union). -/
def calculateIou (b1 b2 : BBox) : Rat :=
  let x1Inter := max b1.x1 b2.x1
  let y1Inter := max b1.y1 b2.y1
  let x2Inter := min b1.x2 b2.x2
  let y2Inter := min b1.y2 b2.y2
  if x2Inter < x1Inter ∨ y2Inter < y1Inter then 0
  else
    let intersection : Int := (x2Inter - x1Inter) * (y2Inter - y1Inter)
    let area1 : Int := (b1.x2 - b1.x1) * (b1.y2 - b1.y1)
    let area2 : Int := (b2.x2 - b2.x1) * (b2.y2 - b2.y1)
    let union : Int := area1 + area2 - intersection
    if union = 0 then 0 else (intersection : Rat) / (union : Rat)

/-- A timestamped detection, one element of the flattened sample window. -/
abbrev TimedDet := Rat × Det

/-- The absorption condition of the greedy grouping loop in
`VehicleTracker._group_stable_detections`: the candidate's IoU with the
group's seed detection is at least `0.7`. -/
def absorbs (seed e : TimedDet) : Bool :=
  decide (calculateIou seed.2.bbox e.2.bbox ≥ (7 : Rat) / 10)

/-- The greedy grouping pass of `VehicleTracker._group_stable_detections`:
the first unconsumed detection seeds a group and absorbs every later
unconsumed detection whose IoU with the seed is `≥ 0.7`. -/
def groupDetections : List TimedDet → List (List TimedDet)
  | [] => []
  | td :: rest =>
    (td :: rest.filter (fun e => absorbs td e)) ::
      groupDetections (rest.filter (fun e => ! absorbs td e))
termination_by l => l.length
decreasing_by
  simp only [List.length_cons]
  exact Nat.lt_succ_of_le (List.length_filter_le _ _)

/-- Maximum timestamp of a group (Python `max(timestamps)`; the group is
always nonempty where this is used). -/
def maxTimes : List TimedDet → Rat
  | [] => 0
  | td :: rest => rest.foldl (fun acc e => max acc e.1) td.1

/-- Minimum timestamp of a group (Python `min(timestamps)`). -/
def minTimes : List TimedDet → Rat
  | [] => 0
  | td :: rest => rest.foldl (fun acc e => min acc e.1) td.1

/-- Python `np.mean` over integers followed by Python `int()`, as in
`VehicleTracker._average_bboxes`. -/
def pyMeanInt (xs : List Int) : Int :=
  pyInt ((xs.sum : Rat) / (xs.length : Rat))

/-- Embeds `VehicleTracker._average_bboxes`: component-wise integer mean. -/
def averageBboxes (bs : List BBox) : BBox :=
  { x1 := pyMeanInt (bs.map (·.x1))
    y1 := pyMeanInt (bs.map (·.y1))
    x2 := pyMeanInt (bs.map (·.x2))
    y2 := pyMeanInt (bs.map (·.y2)) }

/-- A stable vehicle summary (`StableVehicle` dataclass in
`auto_markup.py`). -/
structure StableVehicle where
  bbox : BBox
  confidence : Rat
  stability_score : Rat
  detections_count : Nat
  first_seen : Rat
  last_seen : Rat
deriving DecidableEq

/-- The per-group conversion step of
`VehicleTracker._group_stable_detections`: a group becomes a
`StableVehicle` only with at least two members and a time span of at least
`stability_seconds`; the stability score is `min(1, time_span /
stability_seconds)`.  (The source also computes a `total_duration` local
that it never uses.) -/
def groupToVehicle (stabilitySeconds : Rat) (g : List TimedDet) :
    Option StableVehicle :=
  if g.length < 2 then none
  else
    let timeSpan := maxTimes g - minTimes g
    if timeSpan < stabilitySeconds then none
    else
      some
        { bbox := averageBboxes (g.map (fun e => e.2.bbox))
          confidence := (g.map (fun e => e.2.confidence)).sum / (g.length : Rat)
          stability_score := min 1 (timeSpan / stabilitySeconds)
          detections_count := g.length
          first_seen := minTimes g
          last_seen := maxTimes g }

/-- Timestamp-ascending sort of the flattened window
(`sorted(detections, key=lambda x: x[0])`; Python's sort is stable, as is
insertion sort). -/
def sortByTime (l : List TimedDet) : List TimedDet :=
  l.insertionSort (fun a b => a.1 ≤ b.1)

/-- Embeds `VehicleTracker._group_stable_detections` in full: sort by time,
greedily group, then keep the qualifying groups as stable vehicles. -/
def groupStableDetections (stabilitySeconds : Rat) (dets : List TimedDet) :
    List StableVehicle :=
  (groupDetections (sortByTime dets)).filterMap (groupToVehicle stabilitySeconds)

/-- Embeds `VehicleTracker.add_frame_detections` for one camera: append the new
sample and prune samples older than `2 × stability_seconds`. -/
def addFrameDetections (stabilitySeconds now : Rat) (dets : List Det)
    (history : List (Rat × List Det)) : List (Rat × List Det) :=
  (history ++ [(now, dets)]).filter
    (fun td => decide (td.1 ≥ now - stabilitySeconds * 2))

/-- Embeds `VehicleTracker.get_stable_vehicles` for one camera: fewer than two
retained samples give an empty result; otherwise the flattened window is
grouped. -/
def getStableVehicles (stabilitySeconds : Rat)
    (history : List (Rat × List Det)) : List StableVehicle :=
  if history.length < 2 then []
  else
    let allDetections :=
      (history.map (fun td => td.2.map (fun d => (td.1, d)))).flatten
    if allDetections.isEmpty then []
    else groupStableDetections stabilitySeconds allDetections

/-- Embeds `Detector._bbox_intersects_roi`: intersection of the detection box with
the spot rectangle, compared against `threshold` as a fraction of the ROI
(spot) area.  The two early-out branches (empty intersection, zero ROI
area) mirror the source. -/
def bboxIntersectsRoi (bbox roi : BBox) (threshold : Rat) : Bool :=
  let x1Inter := max bbox.x1 roi.x1
  let y1Inter := max bbox.y1 roi.y1
  let x2Inter := min bbox.x2 roi.x2
  let y2Inter := min bbox.y2 roi.y2
  if x2Inter < x1Inter ∨ y2Inter < y1Inter then false
  else
    let intersectionArea : Int := (x2Inter - x1Inter) * (y2Inter - y1Inter)
    let roiArea : Int := (roi.x2 - roi.x1) * (roi.y2 - roi.y1)
    if roiArea = 0 then false
    else decide ((intersectionArea : Rat) / (roiArea : Rat) ≥ threshold)

/-- Embeds `Detector.get_detections_in_rois`: per ROI, whether any detection passes
the intersection test at the default threshold `0.3`.  The detection list
itself comes from the external detector and is taken as input. -/
def getDetectionsInRois (detections : List Det) (rois : List (String × BBox)) :
    List (String × Bool) :=
  rois.map (fun roi =>
    (roi.1, detections.any (fun d => bboxIntersectsRoi d.bbox roi.2 ((3 : Rat) / 10))))

/-- The per-spot presence test as the spec words it, for comparison with the
source: the intersection area must be at least 30% of the DETECTION's own
bounding-box area. -/
def specDetectionAreaTest (bbox roi : BBox) : Bool :=
  let x1Inter := max bbox.x1 roi.x1
  let y1Inter := max bbox.y1 roi.y1
  let x2Inter := min bbox.x2 roi.x2
  let y2Inter := min bbox.y2 roi.y2
  if x2Inter < x1Inter ∨ y2Inter < y1Inter then false
  else
    let intersectionArea : Int := (x2Inter - x1Inter) * (y2Inter - y1Inter)
    let detArea : Int := (bbox.x2 - bbox.x1) * (bbox.y2 - bbox.y1)
    if detArea = 0 then false
    else decide ((intersectionArea : Rat) / (detArea : Rat) ≥ (3 : Rat) / 10)

/-- Embeds `AutoMarkupService._standardize_bbox`: scale the detected box by
`standard_width/100` and `standard_height/100` about its centroid.
Python `int()` is `pyInt`, Python `//` is `Int.fdiv`. -/
def standardizeBbox (bbox : BBox) (standardWidth standardHeight : Int) : BBox :=
  let detectedWidth := bbox.x2 - bbox.x1
  let detectedHeight := bbox.y2 - bbox.y1
  let marginFactorW : Rat := (standardWidth : Rat) / 100
  let marginFactorH : Rat := (standardHeight : Rat) / 100
  let newWidth := pyInt ((detectedWidth : Rat) * marginFactorW)
  let newHeight := pyInt ((detectedHeight : Rat) * marginFactorH)
  let centerX := Int.fdiv (bbox.x1 + bbox.x2) 2
  let centerY := Int.fdiv (bbox.y1 + bbox.y2) 2
  { x1 := centerX - Int.fdiv newWidth 2
    y1 := centerY - Int.fdiv newHeight 2
    x2 := centerX + Int.fdiv newWidth 2
    y2 := centerY + Int.fdiv newHeight 2 }

/-- The three rejection reasons of `AutoMarkupService._check_validity`
(the source uses Russian strings). -/
inductive ExcludeReason where
  | tooCloseToEdge
  | exceedsFrameBounds
  | tooSmall
deriving DecidableEq

/-- Embeds `AutoMarkupService._check_validity`, evaluated in source order with
first match winning.  The source also receives the original bbox but never
reads it. -/
def checkValidity (suggestedRect : BBox) (frameWidth frameHeight : Int) :
    Bool × Option ExcludeReason :=
  let margin : Int := 10
  if suggestedRect.x1 < margin ∨ suggestedRect.y1 < margin ∨
      suggestedRect.x2 > frameWidth - margin ∨
      suggestedRect.y2 > frameHeight - margin then
    (false, some ExcludeReason.tooCloseToEdge)
  else if suggestedRect.x1 < 0 ∨ suggestedRect.y1 < 0 ∨
      suggestedRect.x2 > frameWidth ∨ suggestedRect.y2 > frameHeight then
    (false, some ExcludeReason.exceedsFrameBounds)
  else if suggestedRect.x2 - suggestedRect.x1 < 50 ∨
      suggestedRect.y2 - suggestedRect.y1 < 50 then
    (false, some ExcludeReason.tooSmall)
  else (true, none)

/-! Association lists stand in for Python dictionaries.  Only the lookup,
store and delete behaviour is consumed by the embedded code paths; none of
them iterates over a state dictionary. -/

/-- Python `d.get(k)` / `k in d`. -/
def alLookup {α : Type} (m : List (String × α)) (k : String) : Option α :=
  (m.find? (fun e => e.1 == k)).map (·.2)

/-- Python `d[k] = v` (replace any existing binding). -/
def alInsert {α : Type} (m : List (String × α)) (k : String) (v : α) :
    List (String × α) :=
  (k, v) :: m.filter (fun e => !(e.1 == k))

/-- Python `del d[k]` (also a no-op when the key is absent, used where the
source guards with `if k in d`). -/
def alErase {α : Type} (m : List (String × α)) (k : String) :
    List (String × α) :=
  m.filter (fun e => !(e.1 == k))

/-- The mutable state of `OccupancyTracker`. -/
structure OccState where
  occupancy_minutes : Int
  spot_timers : List (String × Rat)
  spot_states : List (String × Bool)
  sequential_numbers : List (String × Nat)
  next_sequential : Nat
deriving DecidableEq

/-- Embeds `OccupancyTracker.__init__`. -/
def initOccState (minutes : Int) : OccState :=
  { occupancy_minutes := minutes
    spot_timers := []
    spot_states := []
    sequential_numbers := []
    next_sequential := 1 }

/-- A change record emitted by `OccupancyTracker.update_detections`
(timestamps kept as raw rationals rather than ISO strings). -/
structure SpotChange where
  occupied : Bool
  detected_at : Option Rat
  occupied_since : Option Rat
  sequential_number : Option Nat
deriving DecidableEq

/-- One iteration of the `for spot_id, vehicle_detected in detections`
loop of `OccupancyTracker.update_detections`. -/
def updateSpot (now : Rat) (s : OccState) (spotId : String)
    (vehicleDetected : Bool) : OccState × Option (String × SpotChange) :=
  let thresholdSeconds : Rat := ((s.occupancy_minutes * 60 : Int) : Rat)
  let wasOccupied := (alLookup s.spot_states spotId).getD false
  match vehicleDetected with
  | true =>
    match alLookup s.spot_timers spotId with
    | none =>
      ({ s with spot_timers := alInsert s.spot_timers spotId now }, none)
    | some t0 =>
      if now - t0 ≥ thresholdSeconds ∧ ¬ wasOccupied then
        let n := s.next_sequential
        ({ s with
            spot_states := alInsert s.spot_states spotId true
            sequential_numbers := alInsert s.sequential_numbers spotId n
            next_sequential := n + 1 },
          some (spotId,
            { occupied := true
              detected_at := some t0
              occupied_since := some now
              sequential_number := some n }))
      else (s, none)
  | false =>
    let s1 := { s with spot_timers := alErase s.spot_timers spotId }
    match wasOccupied with
    | true =>
      ({ s1 with
          spot_states := alInsert s1.spot_states spotId false
          sequential_numbers := alErase s1.sequential_numbers spotId },
        some (spotId,
          { occupied := false
            detected_at := none
            occupied_since := none
            sequential_number := none }))
    | false => (s1, none)

/-- Embeds `OccupancyTracker.update_detections`: run the per-spot step over the
detection dictionary in its iteration order, collecting the changes in
order. -/
def updateDetections (now : Rat) (dets : List (String × Bool)) (s : OccState) :
    OccState × List (String × SpotChange) :=
  match dets with
  | [] => (s, [])
  | item :: rest =>
    let r := updateSpot now s item.1 item.2
    let r2 := updateDetections now rest r.1
    (r2.1, r.2.toList ++ r2.2)

/-- A whole-process run: a sequence of `update_detections` calls at given
times, with all emitted changes concatenated in order. -/
def runUpdates (s : OccState) :
    List (Rat × List (String × Bool)) → OccState × List (String × SpotChange)
  | [] => (s, [])
  | (t, dets) :: rest =>
    let r := updateDetections t dets s
    let r2 := runUpdates r.1 rest
    (r2.1, r.2 ++ r2.2)

/-- The sequential numbers carried by a change list, in emission order
(release records carry `none` and are skipped). -/
def assignedNums (chs : List (String × SpotChange)) : List Nat :=
  chs.filterMap (fun c => c.2.sequential_number)

/-- A spot definition as stored by the JSON store; only the fields read by
`StateManager` are modelled. -/
structure SpotDef where
  id : String
  space_id : String
  type : String
deriving DecidableEq

/-- One space's entry in the state blob. -/
structure SpaceState where
  total_spots : Nat
  occupied_spots : Nat
  free_spots : Nat
  spots : List (String × SpotChange)
deriving DecidableEq

/-- The `data['spaces']` map of the state blob. -/
abbrev StateData := List (String × SpaceState)

/-- The zeroed space entry created on demand by the updaters. -/
def emptySpaceState : SpaceState :=
  { total_spots := 0, occupied_spots := 0, free_spots := 0, spots := [] }

/-- The `if space_id not in data['spaces']` block of the updaters. -/
def ensureSpace (data : StateData) (spaceId : String) : StateData :=
  match alLookup data spaceId with
  | some _ => data
  | none => alInsert data spaceId emptySpaceState

/-- Embeds `StateManager._recalculate_space_stats`: totals recomputed from the
authoritative parking-type spot list and the current per-spot occupied
flags.  The source indexes `data['spaces'][space_id]` directly; the `none`
branch is unreachable in the modelled flows, which ensure presence first. -/
def recalcSpaceStats (spots : List SpotDef) (data : StateData)
    (spaceId : String) : StateData :=
  match alLookup data spaceId with
  | none => data
  | some st =>
    let spaceSpots :=
      spots.filter (fun sp => sp.space_id == spaceId && sp.type == "parking")
    let total := spaceSpots.length
    let occupied :=
      (spaceSpots.filter
        (fun sp => ((alLookup st.spots sp.id).map (·.occupied)).getD false)).length
    alInsert data spaceId
      { st with
          total_spots := total
          occupied_spots := occupied
          free_spots := total - occupied }

/-- Writing one spot's state update into its space entry (the shared body
of both updaters). -/
def setSpotState (data : StateData) (spaceId spotId : String)
    (upd : SpotChange) : StateData :=
  let d := ensureSpace data spaceId
  match alLookup d spaceId with
  | none => d
  | some st => alInsert d spaceId { st with spots := alInsert st.spots spotId upd }

/-- The spaces affected by a bulk update: the owning space of every update
whose spot exists in the authoritative list (the source collects them into
a set while folding). -/
def affectedSpaces (spots : List SpotDef)
    (updates : List (String × SpotChange)) : List String :=
  updates.filterMap
    (fun u => (spots.find? (fun sp => sp.id == u.1)).map (·.space_id))

/-- The write phase of `update_multiple_spots`: fold the updates into the
state, skipping spots missing from the authoritative list. -/
def insertPhase (spots : List SpotDef) (updates : List (String × SpotChange))
    (data : StateData) : StateData :=
  updates.foldl
    (fun acc u =>
      match spots.find? (fun sp => sp.id == u.1) with
      | none => acc
      | some sp => setSpotState acc sp.space_id u.1 u.2)
    data

/-- Embeds `StateManager.update_multiple_spots`: write all updates (skipping spots
missing from the authoritative list), then recalculate each affected
space's aggregates. -/
def updateMultipleSpots (spots : List SpotDef)
    (updates : List (String × SpotChange)) (data : StateData) : StateData :=
  (affectedSpaces spots updates).foldl (recalcSpaceStats spots)
    (insertPhase spots updates data)

/-- Embeds `StateManager.update_spot_state`: the single-spot updater. -/
def updateSpotState (spots : List SpotDef) (spotId : String)
    (upd : SpotChange) (data : StateData) : StateData :=
  match spots.find? (fun sp => sp.id == spotId) with
  | none => data
  | some sp =>
    recalcSpaceStats spots (setSpotState data sp.space_id spotId upd) sp.space_id

/-- Calibration session status (`AutoMarkupSession.status` strings). -/
inductive Status where
  | analyzing
  | completed
  | error
  | cancelled
deriving DecidableEq

/-- Embeds `AutoMarkupSession.settings`. -/
structure Settings where
  standard_width : Int
  standard_height : Int
  stability_seconds : Int
  duration_seconds : Int
deriving DecidableEq

/-- Embeds the `SpotProposal` dataclass. -/
structure SpotProposal where
  index : Nat
  camera_id : String
  bbox : BBox
  suggested_rect : BBox
  confidence : Rat
  stability_score : Rat
  is_valid : Bool
  exclude_reason : Option ExcludeReason
  suggested_label : String
deriving DecidableEq

/-- Embeds `AutoMarkupSession` (datetime bookkeeping fields are dropped; the
preview frame is an abstract frame identifier). -/
structure Session where
  session_id : String
  space_id : String
  camera_id : String
  mode : String
  settings : Settings
  status : Status
  progress : Int
  frames_analyzed : Nat
  vehicles_found : Nat
  proposals : List SpotProposal
  error_message : Option String
  preview_frame : Option Nat
deriving DecidableEq

/-- Building one proposal: standardize the box, then validate the
suggested rect against the default `1920 × 1080` frame (the source calls
`_check_validity` without frame arguments). -/
def createProposalFrom (cameraId : String) (settings : Settings) (idx : Nat)
    (bbox : BBox) (conf stab : Rat) : SpotProposal :=
  let rect := standardizeBbox bbox settings.standard_width settings.standard_height
  let v := checkValidity rect 1920 1080
  { index := idx
    camera_id := cameraId
    bbox := bbox
    suggested_rect := rect
    confidence := conf
    stability_score := stab
    is_valid := v.1
    exclude_reason := v.2
    suggested_label := "#" ++ toString (idx + 1) }

/-- Embeds `AutoMarkupService._create_proposals_from_detections` (mode `single`;
stability score fixed at 1). -/
def createProposalsFromDetections (dets : List Det) (cameraId : String)
    (settings : Settings) : List SpotProposal :=
  dets.enum.map (fun p => createProposalFrom cameraId settings p.1 p.2.bbox p.2.confidence 1)

/-- Embeds `AutoMarkupService._create_proposals_from_stable_vehicles`. -/
def createProposalsFromStableVehicles (vs : List StableVehicle)
    (cameraId : String) (settings : Settings) : List SpotProposal :=
  vs.enum.map (fun p =>
    createProposalFrom cameraId settings p.1 p.2.bbox p.2.confidence p.2.stability_score)

/-- The environment of a background analysis task: per-iteration frame
availability and detector output, plus the schedule of the external
`cancel_analysis` call (`cancelBefore i` = the cancel arrives before the
loop head of iteration `i`). -/
structure Env where
  frames : Nat → Option Nat
  detections : Nat → List Det
  cancelBefore : Nat → Bool

/-- Embeds `AutoMarkupService.cancel_analysis` on a registered session: sets the
status flag unconditionally. -/
def cancelAnalysis (s : Session) : Session :=
  { s with status := Status.cancelled }

/-- The sampling loop shared by `_analyze_average` and `_analyze_duration`:
at each iteration the external cancel may land first, then the loop head
checks for cancellation (returning with the third component `true`),
otherwise a frame is fetched and, when present, detections are added to the
tracker and progress fields updated.  Iteration `i` happens at time
`interval * i`. -/
def samplingLoop (env : Env) (stabilitySeconds interval : Rat) (total : Nat) :
    Nat → Session → List (Rat × List Det) →
    Session × List (Rat × List Det) × Bool
  | i, s, hist =>
    if i < total then
      let s0 := if env.cancelBefore i then cancelAnalysis s else s
      if s0.status = Status.cancelled then (s0, hist, true)
      else
        match env.frames i with
        | none => samplingLoop env stabilitySeconds interval total (i + 1) s0 hist
        | some f =>
          let now : Rat := interval * (i : Rat)
          let hist1 := addFrameDetections stabilitySeconds now (env.detections i) hist
          let s1 :=
            { s0 with
                preview_frame := some f
                frames_analyzed := i + 1
                progress := pyInt (((i : Rat) + 1) / (total : Rat) * 100) }
          samplingLoop env stabilitySeconds interval total (i + 1) s1 hist1
    else (s, hist, false)
termination_by i => total - i
decreasing_by all_goals omega

/-- Embeds `AutoMarkupService._analyze_average`: 30 samples at 1-second intervals;
an early cancelled return leaves proposals untouched. -/
def analyzeAverage (env : Env) (s : Session) : Except (Session × String) Session :=
  let stab : Rat := ((s.settings.stability_seconds : Int) : Rat)
  let total : Nat := 30
  let r := samplingLoop env stab 1 total 0 s []
  if r.2.2 then Except.ok r.1
  else
    let stable := getStableVehicles stab r.2.1
    Except.ok
      { r.1 with
          vehicles_found := stable.length
          proposals := createProposalsFromStableVehicles stable r.1.camera_id r.1.settings }

/-- Embeds `AutoMarkupService._analyze_duration`: caller-supplied duration at
5-second intervals, otherwise identical to `average`. -/
def analyzeDuration (env : Env) (s : Session) : Except (Session × String) Session :=
  let stab : Rat := ((s.settings.stability_seconds : Int) : Rat)
  let total : Nat := (Int.fdiv s.settings.duration_seconds 5).toNat
  let r := samplingLoop env stab 5 total 0 s []
  if r.2.2 then Except.ok r.1
  else
    let stable := getStableVehicles stab r.2.1
    Except.ok
      { r.1 with
          vehicles_found := stable.length
          proposals := createProposalsFromStableVehicles stable r.1.camera_id r.1.settings }

/-- Embeds `AutoMarkupService._analyze_single_frame`: a missing frame raises
`RuntimeError("Camera not available")` before any session mutation. -/
def analyzeSingle (env : Env) (s : Session) : Except (Session × String) Session :=
  match env.frames 0 with
  | none => Except.error (s, "Camera not available")
  | some f =>
    let dets := env.detections 0
    Except.ok
      { s with
          preview_frame := some f
          frames_analyzed := 1
          vehicles_found := dets.length
          progress := 100
          proposals := createProposalsFromDetections dets s.camera_id s.settings }

/-- Embeds `AutoMarkupService._run_analysis`: dispatch on the mode string; a
normal helper return is followed by `status = 'completed'`, an exception by
`status = 'error'` with the message recorded. -/
def runAnalysis (env : Env) (s : Session) : Session :=
  let r : Except (Session × String) Session :=
    if s.mode = "single" then analyzeSingle env s
    else if s.mode = "average" then analyzeAverage env s
    else if s.mode = "duration" then analyzeDuration env s
    else Except.error (s, "Unknown mode: " ++ s.mode)
  match r with
  | Except.ok s1 => { s1 with status := Status.completed }
  | Except.error e => { e.1 with status := Status.error, error_message := some e.2 }

/-- A parking space record, as read by `start_analysis`. -/
structure Space where
  id : String
  camera_ids : List String
deriving DecidableEq

/-- Embeds `AutoMarkupService.start_analysis`: the only synchronous failure paths
are a missing space and a space with no cameras; the session is created in
status `analyzing` with the mode string stored unchecked (the fresh UUID of
the source is a fixed placeholder here). -/
def startAnalysis (spaces : List Space) (spaceId mode : String)
    (durationSeconds standardSpotWidth standardSpotHeight stabilitySeconds : Int) :
    Except String Session :=
  match spaces.find? (fun sp => sp.id == spaceId) with
  | none => Except.error ("Space " ++ spaceId ++ " not found")
  | some space =>
    match space.camera_ids with
    | [] => Except.error ("Space " ++ spaceId ++ " has no cameras assigned")
    | cameraId :: _ =>
      Except.ok
        { session_id := "markup_0000"
          space_id := spaceId
          camera_id := cameraId
          mode := mode
          settings :=
            { standard_width := standardSpotWidth
              standard_height := standardSpotHeight
              stability_seconds := stabilitySeconds
              duration_seconds := durationSeconds }
          status := Status.analyzing
          progress := 0
          frames_analyzed := 0
          vehicles_found := 0
          proposals := []
          error_message := none
          preview_frame := none }

/-! Section: shared arithmetic helper lemmas. -/

/-- Division with `Int.fdiv` by `2` agrees with Euclidean division, letting `omega` reason
about the centring arithmetic. -/
theorem fdiv_two_eq_ediv (a : Int) : Int.fdiv a 2 = a / 2 :=
  Int.fdiv_eq_ediv a (by norm_num)

/-- Applying `pyInt` to an integer cast gives back that integer. -/
theorem pyInt_intCast (n : Int) : pyInt (n : Rat) = n := by
  simp [pyInt]

/-- For nonnegative arguments, `pyInt` is the floor. -/
theorem pyInt_eq_floor_of_nonneg (q : Rat) (hq : 0 ≤ q) : pyInt q = ⌊q⌋ := by
  have hnum : 0 ≤ q.num := Rat.num_nonneg.mpr hq
  have hden : (0 : Int) ≤ (q.den : Int) := Int.ofNat_nonneg q.den
  rw [pyInt, Int.tdiv_eq_ediv hnum hden, Rat.floor_def]

/-! Section: claim C2. -/

/-- C2 counterexample: a 10×10 detection lying entirely inside a 100×100
spot rectangle.  100% of the detection's own area overlaps the spot, yet
the source's presence test rejects it, because the source divides the
intersection by the ROI (spot) area, not by the detection's area. -/
theorem roi_test_divides_by_spot_area_cex :
    bboxIntersectsRoi ⟨0, 0, 10, 10⟩ ⟨0, 0, 100, 100⟩ ((3 : Rat) / 10) = false ∧
      specDetectionAreaTest ⟨0, 0, 10, 10⟩ ⟨0, 0, 100, 100⟩ = true ∧
      getDetectionsInRois [⟨⟨0, 0, 10, 10⟩, 9 / 10⟩] [("spot1", ⟨0, 0, 100, 100⟩)] =
        [("spot1", false)] := by
  refine ⟨?_, ?_, ?_⟩ <;> with_unfolding_all decide

/-- C2 amended: for a well-formed spot rectangle, the presence test holds
iff the (clamped) intersection area is at least 30% of the SPOT rectangle's
area — the spot's area, not the detection's, is the denominator. -/
theorem roi_test_is_spot_area_test (b roi : BBox)
    (hw : roi.x1 < roi.x2) (hh : roi.y1 < roi.y2) :
    bboxIntersectsRoi b roi ((3 : Rat) / 10) = true ↔
      ((3 : Rat) / 10) * (((roi.x2 - roi.x1) * (roi.y2 - roi.y1) : Int) : Rat) ≤
        ((max 0 (min b.x2 roi.x2 - max b.x1 roi.x1) *
          max 0 (min b.y2 roi.y2 - max b.y1 roi.y1) : Int) : Rat) := by
  have hroi : (0 : Int) < (roi.x2 - roi.x1) * (roi.y2 - roi.y1) :=
    mul_pos (by omega) (by omega)
  have hroiQ : (0 : Rat) < (((roi.x2 - roi.x1) * (roi.y2 - roi.y1) : Int) : Rat) := by
    exact_mod_cast hroi
  unfold bboxIntersectsRoi
  by_cases hempty : min b.x2 roi.x2 < max b.x1 roi.x1 ∨ min b.y2 roi.y2 < max b.y1 roi.y1
  · rw [if_pos hempty]
    have hclamp : (max 0 (min b.x2 roi.x2 - max b.x1 roi.x1) *
        max 0 (min b.y2 roi.y2 - max b.y1 roi.y1) : Int) = 0 := by
      rcases hempty with h | h
      · rw [max_eq_left (by omega : min b.x2 roi.x2 - max b.x1 roi.x1 ≤ 0), zero_mul]
      · rw [max_eq_left (by omega : min b.y2 roi.y2 - max b.y1 roi.y1 ≤ 0), mul_zero]
    rw [hclamp]
    simp only [Int.cast_zero, Bool.false_eq_true, false_iff, not_le]
    positivity
  · rw [if_neg hempty]
    push_neg at hempty
    have h1 : (0 : Int) ≤ min b.x2 roi.x2 - max b.x1 roi.x1 := by omega
    have h2 : (0 : Int) ≤ min b.y2 roi.y2 - max b.y1 roi.y1 := by omega
    rw [if_neg (by omega : ¬ (roi.x2 - roi.x1) * (roi.y2 - roi.y1) = 0)]
    rw [max_eq_right h1, max_eq_right h2]
    rw [decide_eq_true_iff, ge_iff_le, div_le_div_iff₀ (by norm_num) hroiQ]
    constructor
    · intro h; linarith
    · intro h; linarith

/-- Witness for the amended C2 statement at a concrete well-formed spot. -/
theorem roi_test_is_spot_area_test_witness :
    (0 : Int) < 100 ∧
      (bboxIntersectsRoi ⟨0, 0, 60, 100⟩ ⟨0, 0, 100, 100⟩ ((3 : Rat) / 10) = true ↔
        ((3 : Rat) / 10) * ((((100 : Int) - 0) * (100 - 0) : Int) : Rat) ≤
          ((max 0 (min (60 : Int) 100 - max 0 0) *
            max 0 (min (100 : Int) 100 - max 0 0) : Int) : Rat)) :=
  ⟨by decide, roi_test_is_spot_area_test ⟨0, 0, 60, 100⟩ ⟨0, 0, 100, 100⟩
    (by decide) (by decide)⟩


/-! Section: claim C10. -/

/-- C10: the `exceeds frame bounds` branch of `_check_validity` is
unreachable — a rect with any coordinate outside `[0, frame_w] × [0,
frame_h]` is already rejected by the 10-pixel edge-proximity check, and no
input ever yields the `exceedsFrameBounds` reason. -/
theorem checkValidity_bounds_branch_unreachable :
    ∀ (rect : BBox) (frameWidth frameHeight : Int),
      (rect.x1 < 0 ∨ rect.y1 < 0 ∨ rect.x2 > frameWidth ∨ rect.y2 > frameHeight →
        checkValidity rect frameWidth frameHeight =
          (false, some ExcludeReason.tooCloseToEdge)) ∧
      (checkValidity rect frameWidth frameHeight).2 ≠
        some ExcludeReason.exceedsFrameBounds := by
  intro rect fw fh
  constructor
  · intro h
    have hc : rect.x1 < 10 ∨ rect.y1 < 10 ∨ rect.x2 > fw - 10 ∨ rect.y2 > fh - 10 := by
      omega
    rw [checkValidity, if_pos hc]
  · rw [checkValidity]
    by_cases hc : rect.x1 < 10 ∨ rect.y1 < 10 ∨ rect.x2 > fw - 10 ∨ rect.y2 > fh - 10
    · rw [if_pos hc]; simp
    · rw [if_neg hc, if_neg (by omega : ¬ (rect.x1 < 0 ∨ rect.y1 < 0 ∨ rect.x2 > fw ∨ rect.y2 > fh))]
      by_cases hs : rect.x2 - rect.x1 < 50 ∨ rect.y2 - rect.y1 < 50
      · rw [if_pos hs]; simp
      · rw [if_neg hs]; simp

/-- Witness for C10 at a rect sticking out of the frame: the edge-proximity
reason is reported. -/
theorem checkValidity_bounds_branch_unreachable_witness :
    ((-5 : Int) < 0 ∨ (20 : Int) < 0 ∨ (400 : Int) > 1920 ∨ (400 : Int) > 1080) ∧
      checkValidity ⟨-5, 20, 400, 400⟩ 1920 1080 =
        (false, some ExcludeReason.tooCloseToEdge) :=
  ⟨by decide,
    (checkValidity_bounds_branch_unreachable ⟨-5, 20, 400, 400⟩ 1920 1080).1
      (by decide)⟩

/-! Section: claim C7. -/

/-- A `100%` factor leaves the detected dimension unchanged. -/
theorem pyInt_cast_mul_hundred (w : Int) :
    pyInt ((w : Rat) * (((100 : Int) : Rat) / 100)) = w := by
  have h : (((100 : Int) : Rat) / 100) = 1 := by norm_num
  rw [h, mul_one, pyInt_intCast]

/-- The even-rounded `120%` dimension `2 * (nw / 2)` lies within `(1.2·w - 2,
1.2·w]`. -/
theorem scaled_dim_bounds (w nw : Int) (hw : 0 ≤ w)
    (hnw : nw = pyInt ((w : Rat) * (((120 : Int) : Rat) / 100))) :
    ((6 : Rat) / 5) * (w : Rat) - 2 < ((2 * (nw / 2) : Int) : Rat) ∧
      ((2 * (nw / 2) : Int) : Rat) ≤ ((6 : Rat) / 5) * (w : Rat) := by
  have hfactor : (((120 : Int) : Rat) / 100) = (6 : Rat) / 5 := by norm_num
  set q : Rat := (w : Rat) * ((6 : Rat) / 5) with hqdef
  have hq0 : 0 ≤ q := mul_nonneg (by exact_mod_cast hw) (by norm_num)
  have hfloor : nw = ⌊q⌋ := by
    rw [hnw, hfactor, pyInt_eq_floor_of_nonneg _ hq0]
  have hle : (nw : Rat) ≤ q := by rw [hfloor]; exact Int.floor_le q
  have hgt : q - 1 < (nw : Rat) := by rw [hfloor]; exact Int.sub_one_lt_floor q
  have h2 : (2 * (nw / 2) : Int) = nw - nw % 2 := by omega
  have hm0 : (0 : Int) ≤ nw % 2 := by omega
  have hm1 : nw % 2 ≤ (1 : Int) := by omega
  have hm0q : (0 : Rat) ≤ ((nw % 2 : Int) : Rat) := by exact_mod_cast hm0
  have hm1q : ((nw % 2 : Int) : Rat) ≤ 1 := by exact_mod_cast hm1
  rw [h2]
  push_cast
  constructor
  · nlinarith
  · nlinarith

/-- C7: `_standardize_bbox` is a percentage scaling of the detected box
about its centroid.  At `(100, 100)` the output equals the input up to one
pixel of integer rounding (`x1`/`y1` exactly); at `(120, 120)` the output's
width and height are `1.2 ×` the detected width and height up to rounding,
and the doubled centre `x1 + x2` (resp. `y1 + y2`) is preserved up to one.
The detected size is scaled, never replaced by an absolute constant. -/
theorem standardize_is_percent_scaling (b : BBox)
    (hx : b.x1 ≤ b.x2) (hy : b.y1 ≤ b.y2) :
    ((standardizeBbox b 100 100).x1 = b.x1 ∧
      (standardizeBbox b 100 100).y1 = b.y1 ∧
      b.x2 - 1 ≤ (standardizeBbox b 100 100).x2 ∧
      (standardizeBbox b 100 100).x2 ≤ b.x2 ∧
      b.y2 - 1 ≤ (standardizeBbox b 100 100).y2 ∧
      (standardizeBbox b 100 100).y2 ≤ b.y2) ∧
    (((6 : Rat) / 5) * ((b.x2 - b.x1 : Int) : Rat) - 2 <
        (((standardizeBbox b 120 120).x2 - (standardizeBbox b 120 120).x1 : Int) : Rat) ∧
      (((standardizeBbox b 120 120).x2 - (standardizeBbox b 120 120).x1 : Int) : Rat) ≤
        ((6 : Rat) / 5) * ((b.x2 - b.x1 : Int) : Rat) ∧
      ((6 : Rat) / 5) * ((b.y2 - b.y1 : Int) : Rat) - 2 <
        (((standardizeBbox b 120 120).y2 - (standardizeBbox b 120 120).y1 : Int) : Rat) ∧
      (((standardizeBbox b 120 120).y2 - (standardizeBbox b 120 120).y1 : Int) : Rat) ≤
        ((6 : Rat) / 5) * ((b.y2 - b.y1 : Int) : Rat)) ∧
    (b.x1 + b.x2 - 1 ≤ (standardizeBbox b 120 120).x1 + (standardizeBbox b 120 120).x2 ∧
      (standardizeBbox b 120 120).x1 + (standardizeBbox b 120 120).x2 ≤ b.x1 + b.x2 ∧
      b.y1 + b.y2 - 1 ≤ (standardizeBbox b 120 120).y1 + (standardizeBbox b 120 120).y2 ∧
      (standardizeBbox b 120 120).y1 + (standardizeBbox b 120 120).y2 ≤ b.y1 + b.y2) := by
  have hpy100 : ∀ a c : Int, pyInt ((a : Rat) - (c : Rat)) = a - c := by
    intro a c
    rw [← Int.cast_sub, pyInt_intCast]
  have h100 : standardizeBbox b 100 100 =
      { x1 := (b.x1 + b.x2) / 2 - (b.x2 - b.x1) / 2
        y1 := (b.y1 + b.y2) / 2 - (b.y2 - b.y1) / 2
        x2 := (b.x1 + b.x2) / 2 + (b.x2 - b.x1) / 2
        y2 := (b.y1 + b.y2) / 2 + (b.y2 - b.y1) / 2 } := by
    simp [standardizeBbox, fdiv_two_eq_ediv, pyInt_cast_mul_hundred, hpy100]
  set nx : Int := pyInt (((b.x2 - b.x1 : Int) : Rat) * (((120 : Int) : Rat) / 100)) with hnx
  set ny : Int := pyInt (((b.y2 - b.y1 : Int) : Rat) * (((120 : Int) : Rat) / 100)) with hny
  have h120 : standardizeBbox b 120 120 =
      { x1 := (b.x1 + b.x2) / 2 - nx / 2
        y1 := (b.y1 + b.y2) / 2 - ny / 2
        x2 := (b.x1 + b.x2) / 2 + nx / 2
        y2 := (b.y1 + b.y2) / 2 + ny / 2 } := by
    rw [hnx, hny]
    simp [standardizeBbox, fdiv_two_eq_ediv]
  have hwx := scaled_dim_bounds (b.x2 - b.x1) nx (by omega) hnx
  have hwy := scaled_dim_bounds (b.y2 - b.y1) ny (by omega) hny
  have hdx : ((b.x1 + b.x2) / 2 + nx / 2) - ((b.x1 + b.x2) / 2 - nx / 2) =
      2 * (nx / 2) := by omega
  have hdy : ((b.y1 + b.y2) / 2 + ny / 2) - ((b.y1 + b.y2) / 2 - ny / 2) =
      2 * (ny / 2) := by omega
  refine ⟨?_, ?_, ?_⟩
  · rw [h100]
    dsimp only
    refine ⟨by omega, by omega, by omega, by omega, by omega, by omega⟩
  · rw [h120]
    dsimp only
    rw [hdx, hdy]
    exact ⟨hwx.1, hwx.2, hwy.1, hwy.2⟩
  · rw [h120]
    dsimp only
    refine ⟨by omega, by omega, by omega, by omega⟩

/-- Witness for C7 at the concrete box `(10, 10, 110, 60)`. -/
theorem standardize_is_percent_scaling_witness :
    ((10 : Int) ≤ 110 ∧ (10 : Int) ≤ 60) ∧
      (standardizeBbox ⟨10, 10, 110, 60⟩ 100 100).x1 = 10 ∧
      (standardizeBbox ⟨10, 10, 110, 60⟩ 120 120).x1 +
          (standardizeBbox ⟨10, 10, 110, 60⟩ 120 120).x2 ≤ 10 + 110 :=
  ⟨⟨by decide, by decide⟩,
    (standardize_is_percent_scaling ⟨10, 10, 110, 60⟩ (by decide) (by decide)).1.1,
    (standardize_is_percent_scaling ⟨10, 10, 110, 60⟩ (by decide) (by decide)).2.2.2.1⟩

/-! Section: claim C6. -/

/-- Every stable vehicle actually produced carries stability score 1: the
span filter discards any cluster with `time_span < stability_seconds`, and
`min(1, span/stab)` is `1` on everything that survives. -/
theorem groupToVehicle_score_eq_one (stab : Rat) (hstab : 0 < stab)
    (g : List TimedDet) (v : StableVehicle)
    (h : groupToVehicle stab g = some v) : v.stability_score = 1 := by
  unfold groupToVehicle at h
  dsimp only at h
  split at h
  · exact absurd h (by simp)
  · split at h
    · exact absurd h (by simp)
    · next hspan =>
      have h1 : stab ≤ maxTimes g - minTimes g := not_lt.mp hspan
      have h2 : (1 : Rat) ≤ (maxTimes g - minTimes g) / stab :=
        (one_le_div hstab).mpr h1
      obtain rfl := (Option.some.injEq _ _).mp h
      simpa using min_eq_left h2

/-- C6 counterexample: two detections of the same vehicle at `t = 0` and
`t = 15` form a cluster whose time span is exactly half of
`stability_seconds = 30`, yet no `StableVehicle` (let alone one scored
`0.5`) is produced — the cluster is discarded by the span filter, both at
the per-group step and through the full pipeline. -/
theorem half_span_cluster_discarded_cex :
    maxTimes [((0 : Rat), (⟨⟨0, 0, 100, 100⟩, 9 / 10⟩ : Det)), (15, ⟨⟨15, 0, 115, 100⟩, 9 / 10⟩)] -
        minTimes [((0 : Rat), (⟨⟨0, 0, 100, 100⟩, 9 / 10⟩ : Det)), (15, ⟨⟨15, 0, 115, 100⟩, 9 / 10⟩)] =
        (30 : Rat) / 2 ∧
      groupToVehicle 30
        [((0 : Rat), (⟨⟨0, 0, 100, 100⟩, 9 / 10⟩ : Det)), (15, ⟨⟨15, 0, 115, 100⟩, 9 / 10⟩)] = none ∧
      groupStableDetections 30
        [((0 : Rat), (⟨⟨0, 0, 100, 100⟩, 9 / 10⟩ : Det)), (15, ⟨⟨15, 0, 115, 100⟩, 9 / 10⟩)] = [] := by
  refine ⟨?_, ?_, ?_⟩ <;> with_unfolding_all decide

/-- C6 amended: a cluster with span exactly `stability_seconds` qualifies
and is scored `1.0`; but a cluster whose span is half of
`stability_seconds` is discarded outright (no `StableVehicle`, so none with
score `0.5`), and every `StableVehicle` the pipeline produces is scored
exactly `1`. -/
theorem stability_score_values (stab : Rat) (hstab : 0 < stab) :
    (∀ dets v, v ∈ groupStableDetections stab dets → v.stability_score = 1) ∧
      (∀ g, 2 ≤ g.length → maxTimes g - minTimes g = stab →
        ∃ v, groupToVehicle stab g = some v ∧ v.stability_score = 1) ∧
      (∀ g, maxTimes g - minTimes g = stab / 2 → groupToVehicle stab g = none) := by
  refine ⟨?_, ?_, ?_⟩
  · intro dets v hv
    obtain ⟨g, _, hg⟩ := List.mem_filterMap.mp hv
    exact groupToVehicle_score_eq_one stab hstab g v hg
  · intro g hlen hspan
    have hsome : (groupToVehicle stab g).isSome = true := by
      unfold groupToVehicle
      dsimp only
      rw [if_neg (by omega), if_neg (by rw [hspan]; exact lt_irrefl stab)]
      rfl
    obtain ⟨v, hv⟩ := Option.isSome_iff_exists.mp hsome
    exact ⟨v, hv, groupToVehicle_score_eq_one stab hstab g v hv⟩
  · intro g hspan
    unfold groupToVehicle
    dsimp only
    split
    · rfl
    · rw [if_pos (by rw [hspan]; linarith)]

/-- Witness for the amended C6 statement: `stability_seconds = 30`, one
cluster spanning exactly 30 seconds. -/
theorem stability_score_values_witness :
    (0 : Rat) < 30 ∧
      (2 ≤ ([((0 : Rat), (⟨⟨0, 0, 100, 100⟩, 9 / 10⟩ : Det)),
          (30, ⟨⟨2, 0, 102, 100⟩, 8 / 10⟩)] : List TimedDet).length) ∧
      (∃ v, groupToVehicle 30
          [((0 : Rat), (⟨⟨0, 0, 100, 100⟩, 9 / 10⟩ : Det)),
            (30, ⟨⟨2, 0, 102, 100⟩, 8 / 10⟩)] = some v ∧ v.stability_score = 1) :=
  ⟨by norm_num, by decide,
    (stability_score_values 30 (by norm_num)).2.1
      [((0 : Rat), (⟨⟨0, 0, 100, 100⟩, 9 / 10⟩ : Det)), (30, ⟨⟨2, 0, 102, 100⟩, 8 / 10⟩)]
      (by decide) (by with_unfolding_all decide)⟩

/-! Section: claim C5. -/

/-- Every member of a produced cluster comes from the input window. -/
theorem mem_of_mem_groupDetections :
    ∀ (l g : List TimedDet) (e : TimedDet),
      g ∈ groupDetections l → e ∈ g → e ∈ l := by
  intro l
  induction l using groupDetections.induct with
  | case1 =>
    intro g e hg _
    simp [groupDetections] at hg
  | case2 td rest ih =>
    intro g e hg he
    rw [groupDetections] at hg
    rcases List.mem_cons.mp hg with rfl | htail
    · rcases List.mem_cons.mp he with rfl | hmem
      · exact List.mem_cons_self _ _
      · exact List.mem_cons_of_mem _ (List.mem_of_mem_filter hmem)
    · exact List.mem_cons_of_mem _ (List.mem_of_mem_filter (ih g e htail he))

/-- C5 counterexample.  Star pattern: a seed at `(0,0,100,100)` absorbs both
`(15,0,115,100)` and `(-15,0,85,100)` although their mutual IoU is `7/13 <
0.7` — two detections with IoU below the threshold land in the same
cluster.  Chain pattern: `(15,0,115,100)` and `(30,0,130,100)` have IoU
`17/23 ≥ 0.7` yet end in different clusters, because the second was already
consumed by the seed and the third was not absorbed by it. -/
theorem iou_pair_clustering_cex :
    (calculateIou ⟨15, 0, 115, 100⟩ ⟨-15, 0, 85, 100⟩ < (7 : Rat) / 10 ∧
      groupDetections
          [((0 : Rat), (⟨⟨0, 0, 100, 100⟩, 9 / 10⟩ : Det)),
            (1, ⟨⟨15, 0, 115, 100⟩, 9 / 10⟩), (2, ⟨⟨-15, 0, 85, 100⟩, 9 / 10⟩)] =
        [[((0 : Rat), (⟨⟨0, 0, 100, 100⟩, 9 / 10⟩ : Det)),
          (1, ⟨⟨15, 0, 115, 100⟩, 9 / 10⟩), (2, ⟨⟨-15, 0, 85, 100⟩, 9 / 10⟩)]]) ∧
    (calculateIou ⟨15, 0, 115, 100⟩ ⟨30, 0, 130, 100⟩ ≥ (7 : Rat) / 10 ∧
      groupDetections
          [((0 : Rat), (⟨⟨0, 0, 100, 100⟩, 9 / 10⟩ : Det)),
            (1, ⟨⟨15, 0, 115, 100⟩, 9 / 10⟩), (2, ⟨⟨30, 0, 130, 100⟩, 9 / 10⟩)] =
        [[((0 : Rat), (⟨⟨0, 0, 100, 100⟩, 9 / 10⟩ : Det)),
          (1, ⟨⟨15, 0, 115, 100⟩, 9 / 10⟩)],
          [(2, ⟨⟨30, 0, 130, 100⟩, 9 / 10⟩)]]) := by
  refine ⟨⟨?_, ?_⟩, ?_, ?_⟩ <;> with_unfolding_all decide

/-- C5 amended: clustering is relative to each cluster's seed, not
pairwise.  (i) Every cluster consists of a seed followed by members whose
IoU with that seed is `≥ 0.7`; (ii) every member of a later cluster has IoU
`< 0.7` with every earlier cluster's seed.  (Two detections may thus share
a cluster with mutual IoU `< 0.7`, and detections with IoU `≥ 0.7` may end
in different clusters, as the counterexample shows.) -/
theorem clustering_is_seed_relative :
    ∀ l : List TimedDet,
      (∀ g, g ∈ groupDetections l →
        ∃ s t, g = s :: t ∧
          ∀ e, e ∈ t → calculateIou s.2.bbox e.2.bbox ≥ (7 : Rat) / 10) ∧
      (groupDetections l).Pairwise
        (fun g₁ g₂ => ∀ s t, g₁ = s :: t →
          ∀ e, e ∈ g₂ → calculateIou s.2.bbox e.2.bbox < (7 : Rat) / 10) := by
  intro l
  induction l using groupDetections.induct with
  | case1 => constructor <;> simp [groupDetections]
  | case2 td rest ih =>
    rw [groupDetections]
    constructor
    · intro g hg
      rcases List.mem_cons.mp hg with rfl | htail
      · refine ⟨td, _, rfl, ?_⟩
        intro e he
        have habs : absorbs td e = true := List.of_mem_filter he
        exact of_decide_eq_true habs
      · exact ih.1 g htail
    · refine List.Pairwise.cons ?_ ih.2
      intro g₂ hg₂ s t hst e he
      injection hst with hs _
      subst hs
      have hmem : e ∈ rest.filter (fun e => ! absorbs td e) :=
        mem_of_mem_groupDetections _ g₂ e hg₂ he
      have habs : (! absorbs td e) = true := (List.mem_filter.mp hmem).2
      have hnot : ¬ (calculateIou td.2.bbox e.2.bbox ≥ (7 : Rat) / 10) := by
        intro hge
        rw [show absorbs td e = true from decide_eq_true hge] at habs
        exact Bool.false_ne_true habs
      exact lt_of_not_ge hnot

/-- Witness for the amended C5 statement: the star cluster is a seed plus
members each with IoU `≥ 0.7` to that seed. -/
theorem clustering_is_seed_relative_witness :
    ∃ s t, ([((0 : Rat), (⟨⟨0, 0, 100, 100⟩, 9 / 10⟩ : Det)),
        (1, ⟨⟨15, 0, 115, 100⟩, 9 / 10⟩),
        (2, ⟨⟨-15, 0, 85, 100⟩, 9 / 10⟩)] : List TimedDet) = s :: t ∧
      ∀ e, e ∈ t → calculateIou s.2.bbox e.2.bbox ≥ (7 : Rat) / 10 :=
  (clustering_is_seed_relative
      [((0 : Rat), (⟨⟨0, 0, 100, 100⟩, 9 / 10⟩ : Det)),
        (1, ⟨⟨15, 0, 115, 100⟩, 9 / 10⟩), (2, ⟨⟨-15, 0, 85, 100⟩, 9 / 10⟩)]).1
    _ (by with_unfolding_all decide)

/-! Section: association-list lemmas. -/

/-- Unfolding a lookup one binding at a time. -/
theorem alLookup_cons {α : Type} (e : String × α) (rest : List (String × α))
    (k : String) :
    alLookup (e :: rest) k = if e.1 == k then some e.2 else alLookup rest k := by
  rw [alLookup, List.find?_cons]
  by_cases he : e.1 == k
  · rw [he]
    rfl
  · rw [Bool.not_eq_true] at he
    rw [he]
    rfl

/-- Unfolding a delete one binding at a time. -/
theorem alErase_cons {α : Type} (e : String × α) (rest : List (String × α))
    (k : String) :
    alErase (e :: rest) k =
      if e.1 == k then alErase rest k else e :: alErase rest k := by
  by_cases he : e.1 == k
  · rw [alErase, List.filter_cons, if_neg (by simp [he]), if_pos he]
    rfl
  · rw [Bool.not_eq_true] at he
    rw [alErase, List.filter_cons, if_pos (by simp [he]), if_neg (by simp [he])]
    rfl

/-- Deleting a key removes its binding. -/
theorem alLookup_erase_self {α : Type} (m : List (String × α)) (k : String) :
    alLookup (alErase m k) k = none := by
  induction m with
  | nil => rfl
  | cons e rest ih =>
    rw [alErase_cons]
    by_cases he : e.1 == k
    · rw [if_pos he]
      exact ih
    · rw [Bool.not_eq_true] at he
      rw [if_neg (by simp [he]), alLookup_cons, if_neg (by simp [he])]
      exact ih

/-- Deleting a key leaves other keys' bindings unchanged. -/
theorem alLookup_erase_of_ne {α : Type} (m : List (String × α)) (k k' : String)
    (h : (k' == k) = false) : alLookup (alErase m k) k' = alLookup m k' := by
  induction m with
  | nil => rfl
  | cons e rest ih =>
    rw [alErase_cons]
    by_cases he : e.1 == k
    · have hek : e.1 = k := by simpa using he
      have hne : (e.1 == k') = false := by
        simp only [beq_eq_false_iff_ne] at h ⊢
        rw [hek]
        exact fun hkk => h hkk.symm
      rw [if_pos he, alLookup_cons, if_neg (by simp [hne])]
      exact ih
    · rw [Bool.not_eq_true] at he
      rw [if_neg (by simp [he]), alLookup_cons, alLookup_cons]
      by_cases hk' : e.1 == k'
      · rw [if_pos hk', if_pos hk']
      · rw [Bool.not_eq_true] at hk'
        rw [if_neg (by simp [hk']), if_neg (by simp [hk'])]
        exact ih

/-- Storing a key makes it retrievable. -/
theorem alLookup_insert_self {α : Type} (m : List (String × α)) (k : String) (v : α) :
    alLookup (alInsert m k v) k = some v := by
  rw [alInsert]
  rw [show ((k, v) :: List.filter (fun e => !(e.1 == k)) m) =
      (k, v) :: alErase m k from rfl]
  rw [alLookup_cons, if_pos (by simp)]

/-- Storing a key leaves other keys' bindings unchanged. -/
theorem alLookup_insert_of_ne {α : Type} (m : List (String × α)) (k k' : String)
    (v : α) (h : (k' == k) = false) :
    alLookup (alInsert m k v) k' = alLookup m k' := by
  rw [alInsert]
  rw [show ((k, v) :: List.filter (fun e => !(e.1 == k)) m) =
      (k, v) :: alErase m k from rfl]
  have hne : (k == k') = false := by
    simp only [beq_eq_false_iff_ne] at h ⊢
    exact fun hkk => h hkk.symm
  rw [alLookup_cons, if_neg (by simp [hne])]
  exact alLookup_erase_of_ne m k k' h

/-! Section: claim C4. -/

/-- C4 counterexample: with `occupancy_minutes = 5` and presence sampled
once per minute, the 5th consecutive true sample (elapsed 240 s < 300 s)
does NOT flip the spot to occupied and emits no change; the flip happens at
the 6th sample (elapsed 300 s). -/
theorem five_minute_samples_cex :
    alLookup (runUpdates (initOccState 5)
        [(0, [("A", true)]), (60, [("A", true)]), (120, [("A", true)]),
          (180, [("A", true)]), (240, [("A", true)])]).1.spot_states "A" ≠ some true ∧
      (runUpdates (initOccState 5)
        [(0, [("A", true)]), (60, [("A", true)]), (120, [("A", true)]),
          (180, [("A", true)]), (240, [("A", true)])]).2 = [] ∧
      alLookup (runUpdates (initOccState 5)
        [(0, [("A", true)]), (60, [("A", true)]), (120, [("A", true)]),
          (180, [("A", true)]), (240, [("A", true)]), (300, [("A", true)])]).1.spot_states "A" =
        some true := by
  refine ⟨?_, ?_, ?_⟩ <;> with_unfolding_all decide

/-- C4 amended: the debounce rules of `update_detections` for one sampled
spot.  With a timer running since `t0`: presence true and `now - t0 ≥
occupancy_minutes × 60` with the spot not yet occupied flips it to
occupied, assigns the next sequential number, bumps the counter and emits
the change record `{occupied, detected_at = t0, occupied_since = now,
sequential_number}`; presence true with `now - t0` below the threshold
changes nothing (so with once-per-minute sampling the flip lands on the 6th
consecutive true sample, not the 5th); presence false clears the timer. -/
theorem occupancy_debounce_rules (s : OccState) (spotId : String) (now t0 : Rat)
    (htimer : alLookup s.spot_timers spotId = some t0) :
    (now - t0 ≥ ((s.occupancy_minutes * 60 : Int) : Rat) →
      (alLookup s.spot_states spotId).getD false = false →
      alLookup (updateSpot now s spotId true).1.spot_states spotId = some true ∧
        alLookup (updateSpot now s spotId true).1.sequential_numbers spotId =
          some s.next_sequential ∧
        (updateSpot now s spotId true).1.next_sequential = s.next_sequential + 1 ∧
        (updateSpot now s spotId true).2 =
          some (spotId,
            { occupied := true, detected_at := some t0, occupied_since := some now,
              sequential_number := some s.next_sequential })) ∧
    (now - t0 < ((s.occupancy_minutes * 60 : Int) : Rat) →
      updateSpot now s spotId true = (s, none)) ∧
    alLookup (updateSpot now s spotId false).1.spot_timers spotId = none := by
  refine ⟨?_, ?_, ?_⟩
  · intro helapsed hnocc
    unfold updateSpot
    rw [htimer]
    dsimp only
    have hcond : now - t0 ≥ ((s.occupancy_minutes * 60 : Int) : Rat) ∧
        ¬ (alLookup s.spot_states spotId).getD false = true := by
      exact ⟨helapsed, by simp [hnocc]⟩
    rw [if_pos hcond]
    exact ⟨alLookup_insert_self _ _ _, alLookup_insert_self _ _ _, rfl, rfl⟩
  · intro hlt
    unfold updateSpot
    rw [htimer]
    dsimp only
    rw [if_neg (fun hc => absurd hc.1 (not_le.mpr hlt))]
  · unfold updateSpot
    dsimp only
    by_cases hocc : (alLookup s.spot_states spotId).getD false
    · rw [hocc]
      exact alLookup_erase_self _ _
    · rw [Bool.not_eq_true] at hocc
      rw [hocc]
      exact alLookup_erase_self _ _

/-- Witness for the amended C4 statement: timer started at `t = 0`, sampled
at `t = 300` with `occupancy_minutes = 5`. -/
theorem occupancy_debounce_rules_witness :
    alLookup (updateSpot 300 (OccState.mk 5 [("A", (0 : Rat))] [] [] 1) "A" true).1.spot_states
        "A" = some true ∧
      (updateSpot 300 (OccState.mk 5 [("A", (0 : Rat))] [] [] 1) "A" true).1.next_sequential =
        (OccState.mk 5 [("A", (0 : Rat))] [] [] 1).next_sequential + 1 ∧
      alLookup (updateSpot 300 (OccState.mk 5 [("A", (0 : Rat))] [] [] 1) "A"
          false).1.spot_timers "A" = none := by
  have h := occupancy_debounce_rules (OccState.mk 5 [("A", (0 : Rat))] [] [] 1) "A" 300 0
    (by with_unfolding_all decide)
  exact ⟨(h.1 (by with_unfolding_all decide) (by with_unfolding_all decide)).1,
    (h.1 (by with_unfolding_all decide) (by with_unfolding_all decide)).2.2.1, h.2.2⟩

/-! Section: claim C3. -/

/-- C3 counterexample: starting a session with the unknown mode `bogus` on
a space that has a camera succeeds synchronously — no error is raised in
the start call — and the unknown-mode failure instead happens inside the
background task, which moves that session to status `error` with message
`Unknown mode: bogus`. -/
theorem unknown_mode_error_in_task_cex :
    (startAnalysis [⟨"s1", ["cam1"]⟩] "s1" "bogus" 60 120 120 30).toOption =
        some (Session.mk "markup_0000" "s1" "cam1" "bogus" ⟨120, 120, 30, 60⟩
          Status.analyzing 0 0 0 [] none none) ∧
      (runAnalysis (⟨fun _ => some 0, fun _ => [], fun _ => false⟩ : Env)
          (Session.mk "markup_0000" "s1" "cam1" "bogus" ⟨120, 120, 30, 60⟩
            Status.analyzing 0 0 0 [] none none)).status = Status.error ∧
      (runAnalysis (⟨fun _ => some 0, fun _ => [], fun _ => false⟩ : Env)
          (Session.mk "markup_0000" "s1" "cam1" "bogus" ⟨120, 120, 30, 60⟩
            Status.analyzing 0 0 0 [] none none)).error_message =
        some "Unknown mode: bogus" := by
  refine ⟨?_, ?_, ?_⟩ <;> with_unfolding_all decide

/-- C3 amended: `start_analysis` never validates the mode — for any space
that exists and has a camera it returns an `analyzing` session whatever the
mode string — and the unknown-mode `ValueError` is raised inside the
background task, which sets the session's status to `error` with message
`Unknown mode: <mode>` and leaves its proposals untouched. -/
theorem unknown_mode_is_task_error (env : Env) (s : Session)
    (h1 : s.mode ≠ "single") (h2 : s.mode ≠ "average") (h3 : s.mode ≠ "duration") :
    ((runAnalysis env s).status = Status.error ∧
      (runAnalysis env s).error_message = some ("Unknown mode: " ++ s.mode) ∧
      (runAnalysis env s).proposals = s.proposals) ∧
    ∀ (spaces : List Space) (spaceId mode : String) (d w hgt stab : Int)
      (space : Space),
      spaces.find? (fun sp => sp.id == spaceId) = some space →
      space.camera_ids ≠ [] →
      ∃ sess, startAnalysis spaces spaceId mode d w hgt stab = Except.ok sess ∧
        sess.status = Status.analyzing ∧ sess.mode = mode := by
  constructor
  · unfold runAnalysis
    rw [if_neg h1, if_neg h2, if_neg h3]
    exact ⟨rfl, rfl, rfl⟩
  · intro spaces spaceId mode d w hgt stab space hfind hcam
    unfold startAnalysis
    rw [hfind]
    dsimp only
    obtain ⟨c, rest, hcs⟩ : ∃ c rest, space.camera_ids = c :: rest := by
      cases hcl : space.camera_ids with
      | nil => exact absurd hcl hcam
      | cons c r => exact ⟨c, r, rfl⟩
    rw [hcs]
    exact ⟨_, rfl, rfl, rfl⟩

/-- Witness for the amended C3 statement at mode `weird`. -/
theorem unknown_mode_is_task_error_witness :
    (("weird" : String) ≠ "single" ∧ ("weird" : String) ≠ "average" ∧
        ("weird" : String) ≠ "duration") ∧
      (runAnalysis (⟨fun _ => none, fun _ => [], fun _ => false⟩ : Env)
          (Session.mk "markup_0000" "s2" "cam9" "weird" ⟨120, 120, 30, 60⟩
            Status.analyzing 0 0 0 [] none none)).status = Status.error ∧
      ∃ sess, startAnalysis [⟨"s2", ["cam9"]⟩] "s2" "weird" 60 120 120 30 =
          Except.ok sess ∧ sess.status = Status.analyzing ∧ sess.mode = "weird" := by
  have h := unknown_mode_is_task_error
    (⟨fun _ => none, fun _ => [], fun _ => false⟩ : Env)
    (Session.mk "markup_0000" "s2" "cam9" "weird" ⟨120, 120, 30, 60⟩
      Status.analyzing 0 0 0 [] none none)
    (by decide) (by decide) (by decide)
  exact ⟨⟨by decide, by decide, by decide⟩, h.1.1,
    h.2 [⟨"s2", ["cam9"]⟩] "s2" "weird" 60 120 120 30 ⟨"s2", ["cam9"]⟩
      (by decide) (by decide)⟩

/-! Section: claim C1. -/

/-- C1: the terminal-state guarantee fails on the code.  An `average`-mode
session cancelled between sampling iterations 0 and 1 exits its loop
cooperatively while in status `cancelled` and without writing proposals
(second and third conjuncts), but `_run_analysis` then unconditionally
overwrites the status with `completed` (first conjunct); and
`cancel_analysis` flips even an already-completed session back to
`cancelled` (last conjunct). -/
theorem cancel_overwritten_by_completed :
    (runAnalysis (⟨fun _ => some 0, fun _ => [], fun i => i == 1⟩ : Env)
        (Session.mk "markup_0000" "s1" "cam1" "average" ⟨120, 120, 30, 60⟩
          Status.analyzing 0 0 0 [] none none)).status = Status.completed ∧
      ((analyzeAverage (⟨fun _ => some 0, fun _ => [], fun i => i == 1⟩ : Env)
          (Session.mk "markup_0000" "s1" "cam1" "average" ⟨120, 120, 30, 60⟩
            Status.analyzing 0 0 0 [] none none)).toOption.map (·.status)) =
        some Status.cancelled ∧
      (runAnalysis (⟨fun _ => some 0, fun _ => [], fun i => i == 1⟩ : Env)
        (Session.mk "markup_0000" "s1" "cam1" "average" ⟨120, 120, 30, 60⟩
          Status.analyzing 0 0 0 [] none none)).proposals = [] ∧
      (cancelAnalysis
        (Session.mk "markup_0000" "s1" "cam1" "average" ⟨120, 120, 30, 60⟩
          Status.completed 100 30 0 [] none none)).status = Status.cancelled := by
  refine ⟨?_, ?_, ?_, ?_⟩ <;> with_unfolding_all decide

/-! Section: claim C9. -/

/-- Recalculating one space leaves every other space's entry alone. -/
theorem recalc_lookup_other (spots : List SpotDef) (data : StateData)
    (sid k : String) (h : (k == sid) = false) :
    alLookup (recalcSpaceStats spots data sid) k = alLookup data k := by
  unfold recalcSpaceStats
  cases hd : alLookup data sid with
  | none => rfl
  | some st => exact alLookup_insert_of_ne _ _ _ _ h

/-- Recalculating a space keeps every present entry present. -/
theorem recalc_preserves_isSome (spots : List SpotDef) (data : StateData)
    (sid k : String) (h : (alLookup data k).isSome = true) :
    (alLookup (recalcSpaceStats spots data sid) k).isSome = true := by
  by_cases hks : k == sid
  · have : k = sid := by simpa using hks
    subst this
    unfold recalcSpaceStats
    cases hd : alLookup data k with
    | none => rw [hd] at h; exact absurd h (by simp)
    | some st => rw [alLookup_insert_self]; rfl
  · rw [Bool.not_eq_true] at hks
    rw [recalc_lookup_other spots data sid k hks]
    exact h

/-- On a present space, `_recalculate_space_stats` establishes
`total = occupied + free`: occupied is a filtered count of the parking
spots and free is the complement. -/
theorem recalc_inv (spots : List SpotDef) (data : StateData) (sid : String)
    (st : SpaceState) (h : alLookup data sid = some st) :
    ∃ st', alLookup (recalcSpaceStats spots data sid) sid = some st' ∧
      st'.total_spots = st'.occupied_spots + st'.free_spots := by
  unfold recalcSpaceStats
  rw [h]
  dsimp only
  refine ⟨_, alLookup_insert_self _ _ _, ?_⟩
  dsimp only
  have hle := List.length_filter_le
    (fun sp => ((alLookup st.spots sp.id).map (·.occupied)).getD false)
    (spots.filter (fun sp => sp.space_id == sid && sp.type == "parking"))
  omega

/-- Folding recalculations over spaces not containing `sid` leaves `sid`'s
entry unchanged. -/
theorem foldl_recalc_lookup_not_mem (spots : List SpotDef) :
    ∀ (l : List String) (data : StateData) (sid : String), sid ∉ l →
      alLookup (l.foldl (recalcSpaceStats spots) data) sid = alLookup data sid := by
  intro l
  induction l with
  | nil => intro data sid _; rfl
  | cons a rest ih =>
    intro data sid hmem
    rw [List.foldl_cons]
    have hne : (sid == a) = false := by
      simp only [beq_eq_false_iff_ne]
      exact fun hsa => hmem (hsa ▸ List.mem_cons_self a rest)
    rw [ih _ sid (fun hr => hmem (List.mem_cons_of_mem a hr)),
      recalc_lookup_other spots data a sid hne]

/-- After folding the recalculation over a list of spaces, every present
member space satisfies the aggregate invariant. -/
theorem foldl_recalc_inv (spots : List SpotDef) :
    ∀ (l : List String) (data : StateData) (sid : String),
      sid ∈ l → (alLookup data sid).isSome = true →
      ∃ st, alLookup (l.foldl (recalcSpaceStats spots) data) sid = some st ∧
        st.total_spots = st.occupied_spots + st.free_spots := by
  intro l
  induction l with
  | nil => intro data sid h _; exact absurd h (List.not_mem_nil sid)
  | cons a rest ih =>
    intro data sid hmem hsome
    rw [List.foldl_cons]
    by_cases hsr : sid ∈ rest
    · exact ih _ sid hsr (recalc_preserves_isSome spots data a sid hsome)
    · have hsa : sid = a := by
        rcases List.mem_cons.mp hmem with h | h
        · exact h
        · exact absurd h hsr
      subst hsa
      obtain ⟨st, hst⟩ := Option.isSome_iff_exists.mp hsome
      obtain ⟨st', hst', hinv⟩ := recalc_inv spots data sid st hst
      rw [foldl_recalc_lookup_not_mem spots rest _ sid hsr]
      exact ⟨st', hst', hinv⟩

/-- Ensuring a space leaves its entry present. -/
theorem ensureSpace_lookup_isSome (data : StateData) (sid : String) :
    (alLookup (ensureSpace data sid) sid).isSome = true := by
  unfold ensureSpace
  cases h : alLookup data sid with
  | none => rw [alLookup_insert_self]; rfl
  | some st => rw [h]; rfl

/-- Ensuring a space does not touch other spaces' entries. -/
theorem ensureSpace_lookup_other (data : StateData) (sid k : String)
    (h : (k == sid) = false) :
    alLookup (ensureSpace data sid) k = alLookup data k := by
  unfold ensureSpace
  cases hd : alLookup data sid with
  | none => exact alLookup_insert_of_ne _ _ _ _ h
  | some st => rfl

/-- Writing a spot's state leaves its owning space present. -/
theorem setSpotState_isSome_self (data : StateData) (spaceId spotId : String)
    (upd : SpotChange) :
    (alLookup (setSpotState data spaceId spotId upd) spaceId).isSome = true := by
  unfold setSpotState
  dsimp only
  obtain ⟨st, hst⟩ :=
    Option.isSome_iff_exists.mp (ensureSpace_lookup_isSome data spaceId)
  rw [hst]
  dsimp only
  rw [alLookup_insert_self]
  rfl

/-- Writing a spot's state keeps every present space present. -/
theorem setSpotState_preserves_isSome (data : StateData)
    (spaceId spotId : String) (upd : SpotChange) (k : String)
    (h : (alLookup data k).isSome = true) :
    (alLookup (setSpotState data spaceId spotId upd) k).isSome = true := by
  by_cases hks : k == spaceId
  · have : k = spaceId := by simpa using hks
    subst this
    exact setSpotState_isSome_self data k spotId upd
  · rw [Bool.not_eq_true] at hks
    unfold setSpotState
    dsimp only
    cases hd : alLookup (ensureSpace data spaceId) spaceId with
    | none =>
      dsimp only
      rw [ensureSpace_lookup_other data spaceId k hks]
      exact h
    | some st =>
      dsimp only
      rw [alLookup_insert_of_ne _ _ _ _ hks,
        ensureSpace_lookup_other data spaceId k hks]
      exact h

/-- The write phase keeps every present space present. -/
theorem insertPhase_preserves_isSome (spots : List SpotDef) :
    ∀ (updates : List (String × SpotChange)) (data : StateData) (k : String),
      (alLookup data k).isSome = true →
      (alLookup (insertPhase spots updates data) k).isSome = true := by
  intro updates
  induction updates with
  | nil => intro data k h; exact h
  | cons u rest ih =>
    intro data k h
    rw [insertPhase, List.foldl_cons]
    cases hf : spots.find? (fun sp => sp.id == u.1) with
    | none =>
      exact ih data k h
    | some sp =>
      exact ih _ k (setSpotState_preserves_isSome data sp.space_id u.1 u.2 k h)

/-- After the write phase, every affected space is present. -/
theorem insertPhase_affected_isSome (spots : List SpotDef) :
    ∀ (updates : List (String × SpotChange)) (data : StateData) (sid : String),
      sid ∈ affectedSpaces spots updates →
      (alLookup (insertPhase spots updates data) sid).isSome = true := by
  intro updates
  induction updates with
  | nil => intro data sid h; exact absurd h (List.not_mem_nil sid)
  | cons u rest ih =>
    intro data sid hmem
    rw [insertPhase, List.foldl_cons]
    rw [affectedSpaces, List.filterMap_cons] at hmem
    cases hf : spots.find? (fun sp => sp.id == u.1) with
    | none =>
      rw [hf] at hmem
      exact ih data sid hmem
    | some sp =>
      rw [hf] at hmem
      rw [Option.map_some'] at hmem
      rcases List.mem_cons.mp hmem with rfl | htail
      · exact insertPhase_preserves_isSome spots rest _ sp.space_id
          (setSpotState_isSome_self data sp.space_id u.1 u.2)
      · exact ih _ sid htail

/-- C9: after every aggregator update — bulk over an arbitrary update set,
or single-spot — every affected space's entry satisfies `total_spots =
occupied_spots + free_spots`, the counts being recomputed from the
authoritative parking-type spot list and the stored occupied flags. -/
theorem space_aggregate_invariant (spots : List SpotDef) :
    (∀ (updates : List (String × SpotChange)) (data : StateData) (sid : String),
      sid ∈ affectedSpaces spots updates →
      ∃ st, alLookup (updateMultipleSpots spots updates data) sid = some st ∧
        st.total_spots = st.occupied_spots + st.free_spots) ∧
    (∀ (spotId : String) (upd : SpotChange) (data : StateData) (sp : SpotDef),
      spots.find? (fun s => s.id == spotId) = some sp →
      ∃ st, alLookup (updateSpotState spots spotId upd data) sp.space_id = some st ∧
        st.total_spots = st.occupied_spots + st.free_spots) := by
  constructor
  · intro updates data sid hmem
    unfold updateMultipleSpots
    exact foldl_recalc_inv spots _ _ sid hmem
      (insertPhase_affected_isSome spots updates data sid hmem)
  · intro spotId upd data sp hfind
    unfold updateSpotState
    rw [hfind]
    dsimp only
    obtain ⟨st, hst⟩ := Option.isSome_iff_exists.mp
      (setSpotState_isSome_self data sp.space_id spotId upd)
    exact recalc_inv spots _ sp.space_id st hst

/-- Witness for C9: one parking spot flipped to occupied, bulk and single
paths. -/
theorem space_aggregate_invariant_witness :
    ("sp1" ∈ affectedSpaces [⟨"p1", "sp1", "parking"⟩]
        [("p1", ⟨true, some 0, some 0, some 1⟩)]) ∧
      (∃ st, alLookup (updateMultipleSpots [⟨"p1", "sp1", "parking"⟩]
          [("p1", ⟨true, some 0, some 0, some 1⟩)] []) "sp1" = some st ∧
        st.total_spots = st.occupied_spots + st.free_spots) ∧
      (∃ st, alLookup (updateSpotState [⟨"p1", "sp1", "parking"⟩] "p1"
          ⟨true, some 0, some 0, some 1⟩ []) "sp1" = some st ∧
        st.total_spots = st.occupied_spots + st.free_spots) := by
  have h := space_aggregate_invariant [⟨"p1", "sp1", "parking"⟩]
  refine ⟨by decide, ?_, ?_⟩
  · exact h.1 [("p1", ⟨true, some 0, some 0, some 1⟩)] [] "sp1" (by decide)
  · exact h.2 "p1" ⟨true, some 0, some 0, some 1⟩ [] ⟨"p1", "sp1", "parking"⟩ (by decide)

/-! Section: claim C8. -/

/-- The tracker's state invariant: a sequential number is assigned iff the
spot is marked occupied, and every assigned number is below the counter. -/
abbrev OccInv (s : OccState) : Prop :=
  (∀ id, (alLookup s.sequential_numbers id).isSome = true ↔
    alLookup s.spot_states id = some true) ∧
  (∀ id n, alLookup s.sequential_numbers id = some n → n < s.next_sequential)

/-- One per-spot step preserves the invariant; the counter never decreases;
and any number it emits lies in `[next before, next after)`. -/
theorem updateSpot_step (now : Rat) (s : OccState) (id0 : String) (b : Bool)
    (hinv : OccInv s) :
    OccInv (updateSpot now s id0 b).1 ∧
      s.next_sequential ≤ (updateSpot now s id0 b).1.next_sequential ∧
      ∀ n, n ∈ assignedNums (updateSpot now s id0 b).2.toList →
        s.next_sequential ≤ n ∧ n < (updateSpot now s id0 b).1.next_sequential := by
  cases b with
  | true =>
    unfold updateSpot
    dsimp only
    cases htimer : alLookup s.spot_timers id0 with
    | none =>
      dsimp only
      exact ⟨⟨hinv.1, hinv.2⟩, le_refl _, by simp [assignedNums]⟩
    | some t0 =>
      dsimp only
      by_cases hcond : now - t0 ≥ ((s.occupancy_minutes * 60 : Int) : Rat) ∧
          ¬ (alLookup s.spot_states id0).getD false = true
      · rw [if_pos hcond]
        dsimp only
        refine ⟨⟨?_, ?_⟩, by omega, ?_⟩
        · intro id
          by_cases hid : id == id0
          · have hid' : id = id0 := by simpa using hid
            subst hid'
            rw [alLookup_insert_self, alLookup_insert_self]
            simp
          · rw [Bool.not_eq_true] at hid
            rw [alLookup_insert_of_ne _ _ _ _ hid, alLookup_insert_of_ne _ _ _ _ hid]
            exact hinv.1 id
        · intro id n hn
          by_cases hid : id == id0
          · have hid' : id = id0 := by simpa using hid
            subst hid'
            rw [alLookup_insert_self] at hn
            have hn' : s.next_sequential = n := (Option.some.injEq _ _).mp hn
            exact lt_of_eq_of_lt hn'.symm (Nat.lt_succ_self _)
          · rw [Bool.not_eq_true] at hid
            rw [alLookup_insert_of_ne _ _ _ _ hid] at hn
            exact Nat.lt_succ_of_lt (hinv.2 id n hn)
        · intro n hn
          simp [assignedNums] at hn
          omega
      · rw [if_neg hcond]
        exact ⟨⟨hinv.1, hinv.2⟩, le_refl _, by simp [assignedNums]⟩
  | false =>
    unfold updateSpot
    dsimp only
    by_cases hocc : (alLookup s.spot_states id0).getD false
    · rw [hocc]
      dsimp only
      refine ⟨⟨?_, ?_⟩, le_refl _, by simp [assignedNums]⟩
      · intro id
        by_cases hid : id == id0
        · have hid' : id = id0 := by simpa using hid
          subst hid'
          rw [alLookup_erase_self, alLookup_insert_self]
          simp
        · rw [Bool.not_eq_true] at hid
          rw [alLookup_erase_of_ne _ _ _ hid, alLookup_insert_of_ne _ _ _ _ hid]
          exact hinv.1 id
      · intro id n hn
        by_cases hid : id == id0
        · have hid' : id = id0 := by simpa using hid
          subst hid'
          rw [alLookup_erase_self] at hn
          exact absurd hn (by simp)
        · rw [Bool.not_eq_true] at hid
          rw [alLookup_erase_of_ne _ _ _ hid] at hn
          exact hinv.2 id n hn
    · rw [Bool.not_eq_true] at hocc
      rw [hocc]
      dsimp only
      exact ⟨⟨hinv.1, hinv.2⟩, le_refl _, by simp [assignedNums]⟩

/-- One whole `update_detections` call preserves the invariant; the change
list's assigned numbers are strictly increasing in emission order and lie
in `[next before, next after)`. -/
theorem updateDetections_step (now : Rat) :
    ∀ (dets : List (String × Bool)) (s : OccState), OccInv s →
      OccInv (updateDetections now dets s).1 ∧
        s.next_sequential ≤ (updateDetections now dets s).1.next_sequential ∧
        List.Pairwise (· < ·) (assignedNums (updateDetections now dets s).2) ∧
        ∀ n, n ∈ assignedNums (updateDetections now dets s).2 →
          s.next_sequential ≤ n ∧ n < (updateDetections now dets s).1.next_sequential := by
  intro dets
  induction dets with
  | nil =>
    intro s hinv
    exact ⟨hinv, le_refl _, List.Pairwise.nil, by
      intro n hn
      simp [updateDetections, assignedNums] at hn⟩
  | cons item rest ih =>
    intro s hinv
    have hstep := updateSpot_step now s item.1 item.2 hinv
    have hrest := ih (updateSpot now s item.1 item.2).1 hstep.1
    rw [updateDetections]
    dsimp only
    rw [assignedNums, List.filterMap_append]
    constructor
    · exact hrest.1
    constructor
    · exact le_trans hstep.2.1 hrest.2.1
    constructor
    · rw [List.pairwise_append]
      refine ⟨?_, hrest.2.2.1, ?_⟩
      · cases hc : (updateSpot now s item.1 item.2).2 with
        | none => exact List.Pairwise.nil
        | some c =>
          cases hn : c.2.sequential_number with
          | none => simp [hc, hn, assignedNums]
          | some n => simp [hc, hn, assignedNums]
      · intro a ha b hb
        have ha' := hstep.2.2 a (by rw [assignedNums]; exact ha)
        have hb' := hrest.2.2.2 b (by rw [assignedNums]; exact hb)
        omega
    · intro n hn
      rcases List.mem_append.mp hn with h | h
      · have := hstep.2.2 n (by rw [assignedNums]; exact h)
        have h2 := hrest.2.1
        exact ⟨this.1, by omega⟩
      · have := hrest.2.2.2 n (by rw [assignedNums]; exact h)
        have h1 := hstep.2.1
        exact ⟨by omega, this.2⟩

/-- A whole run of `update_detections` calls preserves the invariant, and
the assigned numbers over the run are strictly increasing. -/
theorem runUpdates_step :
    ∀ (inputs : List (Rat × List (String × Bool))) (s : OccState), OccInv s →
      OccInv (runUpdates s inputs).1 ∧
        s.next_sequential ≤ (runUpdates s inputs).1.next_sequential ∧
        List.Pairwise (· < ·) (assignedNums (runUpdates s inputs).2) ∧
        ∀ n, n ∈ assignedNums (runUpdates s inputs).2 →
          s.next_sequential ≤ n ∧ n < (runUpdates s inputs).1.next_sequential := by
  intro inputs
  induction inputs with
  | nil =>
    intro s hinv
    exact ⟨hinv, le_refl _, List.Pairwise.nil, by
      intro n hn
      simp [runUpdates, assignedNums] at hn⟩
  | cons input rest ih =>
    intro s hinv
    obtain ⟨t, dets⟩ := input
    have hstep := updateDetections_step t dets s hinv
    have hrest := ih (updateDetections t dets s).1 hstep.1
    rw [runUpdates]
    dsimp only
    rw [assignedNums, List.filterMap_append]
    refine ⟨hrest.1, le_trans hstep.2.1 hrest.2.1, ?_, ?_⟩
    · rw [List.pairwise_append]
      refine ⟨by rw [assignedNums] at hstep; exact hstep.2.2.1, hrest.2.2.1, ?_⟩
      · intro a ha b hb
        have ha' := hstep.2.2.2 a (by rw [assignedNums]; exact ha)
        have hb' := hrest.2.2.2 b (by rw [assignedNums]; exact hb)
        omega
    · intro n hn
      rcases List.mem_append.mp hn with h | h
      · have := hstep.2.2.2 n (by rw [assignedNums]; exact h)
        have h2 := hrest.2.1
        exact ⟨this.1, by omega⟩
      · have := hrest.2.2.2 n (by rw [assignedNums]; exact h)
        have h1 := hstep.2.1
        exact ⟨by omega, this.2⟩

/-- C8: over any whole-process run of `update_detections` calls from a
fresh tracker, (i) a spot holds a sequential number iff it is occupied —
this holds at every point of the lifetime, since every prefix of the input
sequence is itself an instance — and (ii) the sequence of numbers handed
out, in emission order, is strictly increasing; in particular all assigned
numbers are pairwise distinct, so an integer assigned once is never
assigned again, to the same or to a different spot, even after release. -/
theorem sequential_number_invariant (minutes : Int)
    (inputs : List (Rat × List (String × Bool))) :
    (∀ id,
      (alLookup (runUpdates (initOccState minutes) inputs).1.sequential_numbers id).isSome =
          true ↔
        alLookup (runUpdates (initOccState minutes) inputs).1.spot_states id = some true) ∧
      List.Pairwise (· < ·) (assignedNums (runUpdates (initOccState minutes) inputs).2) := by
  have hinit : OccInv (initOccState minutes) := by
    constructor
    · intro id
      simp [initOccState, alLookup]
    · intro id n hn
      simp [initOccState, alLookup] at hn
  have h := runUpdates_step inputs (initOccState minutes) hinit
  exact ⟨h.1.1, h.2.2.1⟩

/-- Witness for C8 at a concrete two-call run that assigns one number. -/
theorem sequential_number_invariant_witness :
    ((alLookup (runUpdates (initOccState 5)
          [(0, [("A", true)]), (300, [("A", true)])]).1.sequential_numbers "A").isSome =
        true ↔
      alLookup (runUpdates (initOccState 5)
          [(0, [("A", true)]), (300, [("A", true)])]).1.spot_states "A" = some true) ∧
      List.Pairwise (· < ·)
        (assignedNums (runUpdates (initOccState 5)
          [(0, [("A", true)]), (300, [("A", true)])]).2) :=
  ⟨(sequential_number_invariant 5 [(0, [("A", true)]), (300, [("A", true)])]).1 "A",
    (sequential_number_invariant 5 [(0, [("A", true)]), (300, [("A", true)])]).2⟩

end ParkingSystem
